import Mathlib

/-!
Verification of the ATM simulation (`Atm_Project.py`).

The program is a single-session console ATM backed by a SQLite table
`accounts(account_number TEXT PRIMARY KEY, pin TEXT, balance REAL)`.
We shallowly embed it:

* balances and amounts, Python floats in the source, are modelled as exact
  rationals (`ℚ`) — the specified arithmetic properties are stated with
  exact arithmetic;
* the durable store is a list of rows in insertion order; SQL `UPDATE`
  rewrites every matching row, `INSERT OR IGNORE` appends only when the key
  is absent, a plain `INSERT` on a present key raises `IntegrityError`
  (modelled as returning `false` with the store unchanged);
* `hash_pin` (SHA-256 in the source) is modelled as an injective tagging
  function: the claims depend only on determinism and collision-freedom of
  the digest, which SHA-256 is assumed to provide;
* `Transaction.timestamp` (wall-clock capture time) is omitted: no claim
  mentions it and real time has no shallow embedding.
-/

/-- `hash_pin` from the source: a deterministic one-way digest of a PIN.
SHA-256 is modelled as an injective tag; only determinism and
collision-freedom are used. -/
def hash_pin (pin : String) : String := "sha256:" ++ pin

/-- A session transaction record (`Transaction` in the source); the
wall-clock `timestamp` field is omitted. -/
structure Transaction where
  txn_type : String
  amount : ℚ
  balance_after : ℚ
deriving DecidableEq

/-- One row of the `accounts` table. -/
structure DBRow where
  account_number : String
  pin : String
  balance : ℚ
deriving DecidableEq

/-- The durable store: the `accounts` table as a list of rows in insertion
order (the TEXT PRIMARY KEY keeps identifiers unique in any reachable
store, but the model does not assume it). -/
abbrev DB := List DBRow

/-- `UPDATE accounts SET balance = ? WHERE account_number = ?`. -/
def update_balance (db : DB) (id : String) (b : ℚ) : DB :=
  db.map (fun r => if r.account_number == id then { r with balance := b } else r)

/-- `UPDATE accounts SET pin = ? WHERE account_number = ?`. -/
def update_pin (db : DB) (id : String) (p : String) : DB :=
  db.map (fun r => if r.account_number == id then { r with pin := p } else r)

/-- Balance column of the (first) row with the given identifier. -/
def balanceOf : DB → String → Option ℚ
  | [], _ => none
  | r :: rest, id => if r.account_number == id then some r.balance else balanceOf rest id

/-- Pin column of the (first) row with the given identifier. -/
def pinOf : DB → String → Option String
  | [], _ => none
  | r :: rest, id => if r.account_number == id then some r.pin else pinOf rest id

/-- In-memory `Account` object: identifier, stored PIN digest, balance and
the in-session transaction log. The SQLite connection held by the Python
object is passed explicitly as a `DB` value to each mutating operation. -/
structure Account where
  account_number : String
  pin_hash : String
  balance : ℚ
  transactions : List Transaction
deriving DecidableEq

/-- `Account._check_pin`: compare the digest of the supplied PIN with the
stored digest. -/
def Account._check_pin (acc : Account) (pin : String) : Bool :=
  acc.pin_hash == hash_pin pin

/-- `Account._persist_balance`: write the current balance to the store. -/
def Account._persist_balance (acc : Account) (db : DB) : DB :=
  update_balance db acc.account_number acc.balance

/-- `Account._persist_pin`: write the current PIN digest to the store. -/
def Account._persist_pin (acc : Account) (db : DB) : DB :=
  update_pin db acc.account_number acc.pin_hash

/-- `Account.get_balance`: append an INQUIRY record and return the balance.
Returns the balance together with the updated account. -/
def Account.get_balance (acc : Account) : ℚ × Account :=
  (acc.balance,
   { acc with transactions := acc.transactions ++ [⟨"INQUIRY", 0, acc.balance⟩] })

/-- `Account.deposit`: reject non-positive amounts; otherwise add to the
balance, persist it, append a DEPOSIT record and return `true`. -/
def Account.deposit (acc : Account) (db : DB) (amount : ℚ) : Bool × Account × DB :=
  if amount ≤ 0 then (false, acc, db)
  else
    let acc1 : Account := { acc with balance := acc.balance + amount }
    let db1 : DB := acc1._persist_balance db
    (true,
     { acc1 with transactions := acc1.transactions ++ [⟨"DEPOSIT", amount, acc1.balance⟩] },
     db1)

/-- `Account.withdraw`: reject non-positive amounts and amounts above the
balance; otherwise subtract, persist, append a WITHDRAW record, return
`true`. -/
def Account.withdraw (acc : Account) (db : DB) (amount : ℚ) : Bool × Account × DB :=
  if amount ≤ 0 ∨ acc.balance < amount then (false, acc, db)
  else
    let acc1 : Account := { acc with balance := acc.balance - amount }
    let db1 : DB := acc1._persist_balance db
    (true,
     { acc1 with transactions := acc1.transactions ++ [⟨"WITHDRAW", amount, acc1.balance⟩] },
     db1)

/-- `Account.change_pin`: require the old PIN to verify and the new PIN to
have length at least 4; then replace the digest and persist it. No
transaction record is appended. -/
def Account.change_pin (acc : Account) (db : DB) (old_pin new_pin : String) :
    Bool × Account × DB :=
  if !(acc._check_pin old_pin) then (false, acc, db)
  else if new_pin.length < 4 then (false, acc, db)
  else
    let acc1 : Account := { acc with pin_hash := hash_pin new_pin }
    (true, acc1, acc1._persist_pin db)

/-- `Account.get_transactions`: a copy of the session log, in insertion
order. -/
def Account.get_transactions (acc : Account) : List Transaction :=
  acc.transactions

/-- The three sample rows seeded by `init_db`. -/
def sample_accounts : List DBRow :=
  [⟨"1001", hash_pin "1234", 0⟩, ⟨"1002", hash_pin "5678", 0⟩, ⟨"1003", hash_pin "0000", 0⟩]

/-- `INSERT OR IGNORE`: append the row unless its key is already present. -/
def insert_or_ignore (db : DB) (row : DBRow) : DB :=
  if db.any (fun r => r.account_number == row.account_number) then db
  else db ++ [row]

/-- `init_db`: `CREATE TABLE IF NOT EXISTS` (no effect on contents) followed
by `INSERT OR IGNORE` of the three sample rows. -/
def init_db (db : DB) : DB :=
  sample_accounts.foldl insert_or_ignore db

/-- `insert_account_to_db`: plain `INSERT` of a fresh zero-balance row;
an `IntegrityError` on a duplicate key yields `false` with no commit. -/
def insert_account_to_db (db : DB) (account_number pin : String) : Bool × DB :=
  if db.any (fun r => r.account_number == account_number) then (false, db)
  else (true, db ++ [⟨account_number, hash_pin pin, 0⟩])

/-- `load_all_accounts`: one in-memory account per row, with an empty
session log. -/
def load_all_accounts (db : DB) : List (String × Account) :=
  db.map (fun r => (r.account_number, ⟨r.account_number, r.pin, r.balance, []⟩))

/-- The `ATM` controller's state: store, identifier-to-account map, and the
currently bound account (by identifier; the Python object aliases the map
entry). -/
structure ATMState where
  db : DB
  accounts : List (String × Account)
  current_account : Option String

/-- `ATM.create_account` with the console reads made explicit arguments:
reject an empty identifier, an identifier already in the map, or a PIN
shorter than 4; otherwise insert into the store and, on success, add the
fresh account to the map. -/
def ATM.create_account (s : ATMState) (acc_no pin : String) : Bool × ATMState :=
  if acc_no = "" then (false, s)
  else if (s.accounts.find? (fun p => p.1 == acc_no)).isSome then (false, s)
  else if pin.length < 4 then (false, s)
  else
    let r := insert_account_to_db s.db acc_no pin
    if r.1 then
      (true, { s with db := r.2,
                      accounts := s.accounts ++ [(acc_no, ⟨acc_no, hash_pin pin, 0, []⟩)] })
    else (false, { s with db := r.2 })

/-- `ATM.authenticate_user` with the console reads made explicit: look the
identifier up in the in-memory map, check the PIN, and on success bind the
session's current account. -/
def ATM.authenticate_user (s : ATMState) (acc_no pin : String) : Bool × ATMState :=
  match s.accounts.find? (fun p => p.1 == acc_no) with
  | some p =>
      if p.2._check_pin pin then (true, { s with current_account := some acc_no })
      else (false, s)
  | none => (false, s)

/-- Logout (`handle_choice` on choice `"6"`): clear the current-account
binding. -/
def ATM.logout (s : ATMState) : ATMState :=
  { s with current_account := none }

/-- One ledger operation of a session, with its console arguments. -/
inductive Op where
  | balanceInquiry
  | deposit (a : ℚ)
  | withdraw (a : ℚ)
  | changePin (old_pin new_pin : String)
  | transactionsView
deriving DecidableEq

/-- Apply one ledger operation to an account and the store. -/
def stepOp (st : Account × DB) (op : Op) : Account × DB :=
  match op with
  | .balanceInquiry => ((st.1.get_balance).2, st.2)
  | .deposit a => ((st.1.deposit st.2 a).2.1, (st.1.deposit st.2 a).2.2)
  | .withdraw a => ((st.1.withdraw st.2 a).2.1, (st.1.withdraw st.2 a).2.2)
  | .changePin o n => ((st.1.change_pin st.2 o n).2.1, (st.1.change_pin st.2 o n).2.2)
  | .transactionsView => st

/-- Run a sequence of ledger operations. -/
def runOps (st : Account × DB) (ops : List Op) : Account × DB :=
  ops.foldl stepOp st

/-- The records a sequence of operations appends, computed from the running
balance: one record per inquiry and per successful deposit or withdrawal,
in order, nothing for failures, PIN changes or history views. This follows
the specification's description of the session log. -/
def logOf (b : ℚ) : List Op → List Transaction
  | [] => []
  | Op.balanceInquiry :: rest => ⟨"INQUIRY", 0, b⟩ :: logOf b rest
  | Op.deposit a :: rest =>
      if a ≤ 0 then logOf b rest
      else ⟨"DEPOSIT", a, b + a⟩ :: logOf (b + a) rest
  | Op.withdraw a :: rest =>
      if a ≤ 0 ∨ b < a then logOf b rest
      else ⟨"WITHDRAW", a, b - a⟩ :: logOf (b - a) rest
  | Op.changePin _ _ :: rest => logOf b rest
  | Op.transactionsView :: rest => logOf b rest

/-- The balance after a sequence of operations, computed from the running
balance alone. -/
def balAfter (b : ℚ) : List Op → ℚ
  | [] => b
  | Op.deposit a :: rest => if a ≤ 0 then balAfter b rest else balAfter (b + a) rest
  | Op.withdraw a :: rest =>
      if a ≤ 0 ∨ b < a then balAfter b rest else balAfter (b - a) rest
  | Op.balanceInquiry :: rest => balAfter b rest
  | Op.changePin _ _ :: rest => balAfter b rest
  | Op.transactionsView :: rest => balAfter b rest

/-! ### Store lemmas -/

/-- After `update_balance db id b`, the row found for `id` carries balance
`b` (whenever a row for `id` exists at all). -/
theorem balanceOf_update_balance (db : DB) (id : String) (b : ℚ)
    (h : (balanceOf db id).isSome) :
    balanceOf (update_balance db id b) id = some b := by
  induction db with
  | nil => simp [balanceOf] at h
  | cons r rest ih =>
      by_cases hr : r.account_number = id
      · simp [update_balance, balanceOf, hr]
      · simp only [update_balance, List.map_cons, balanceOf] at h ⊢
        simp only [hr, if_false, beq_iff_eq, if_neg hr] at h ⊢
        simpa [update_balance, hr] using ih h

/-- `update_balance` leaves the identifier and pin columns of every row
unchanged. -/
theorem update_balance_id_pin (db : DB) (id : String) (b : ℚ) :
    (update_balance db id b).map (fun r => (r.account_number, r.pin))
      = db.map (fun r => (r.account_number, r.pin)) := by
  simp only [update_balance, List.map_map]
  apply List.map_congr_left
  intro r _
  by_cases hr : r.account_number = id <;> simp [hr]

/-- `update_pin` leaves the identifier and balance columns of every row
unchanged. -/
theorem update_pin_id_balance (db : DB) (id p : String) :
    (update_pin db id p).map (fun r => (r.account_number, r.balance))
      = db.map (fun r => (r.account_number, r.balance)) := by
  simp only [update_pin, List.map_map]
  apply List.map_congr_left
  intro r _
  by_cases hr : r.account_number = id <;> simp [hr]

/-! ### Concrete fixtures used by witnesses and counterexamples -/

/-- A sample in-memory account with balance 10 and PIN `"1234"`. -/
def acctA : Account := ⟨"1001", hash_pin "1234", 10, []⟩

/-- A store holding exactly the row backing `acctA`. -/
def dbA : DB := [⟨"1001", hash_pin "1234", 10⟩]

/-- C1: for a deposit of `a > 0`, `deposit` returns `true`, the in-memory
balance becomes the old balance plus `a`, the durable store row for the
account holds the new balance when the call returns, and exactly one
DEPOSIT record with amount `a` and the new balance is appended to the
session log; for `a ≤ 0`, `deposit` returns `false` and neither the
account, its log, nor the store changes. -/
theorem deposit_spec (acc : Account) (db : DB) (a : ℚ)
    (hrow : (balanceOf db acc.account_number).isSome) :
    (0 < a →
      (acc.deposit db a).1 = true ∧
      (acc.deposit db a).2.1.balance = acc.balance + a ∧
      balanceOf (acc.deposit db a).2.2 acc.account_number = some (acc.balance + a) ∧
      (acc.deposit db a).2.1.transactions
        = acc.transactions ++ [⟨"DEPOSIT", a, acc.balance + a⟩]) ∧
    (a ≤ 0 →
      (acc.deposit db a).1 = false ∧
      (acc.deposit db a).2.1 = acc ∧
      (acc.deposit db a).2.2 = db) := by
  constructor
  · intro ha
    have hna : ¬ a ≤ 0 := not_le.mpr ha
    refine ⟨?_, ?_, ?_, ?_⟩ <;>
      simp only [Account.deposit, if_neg hna, Account._persist_balance]
    exact balanceOf_update_balance db acc.account_number (acc.balance + a) hrow
  · intro ha
    simp [Account.deposit, ha]

/-- Witness for `deposit_spec`: depositing 5 into `acctA` over `dbA`. -/
theorem deposit_spec_witness :
    (acctA.deposit dbA 5).1 = true ∧
    (acctA.deposit dbA 5).2.1.balance = acctA.balance + 5 ∧
    balanceOf (acctA.deposit dbA 5).2.2 acctA.account_number = some (acctA.balance + 5) ∧
    (acctA.deposit dbA 5).2.1.transactions
      = acctA.transactions ++ [⟨"DEPOSIT", 5, acctA.balance + 5⟩] :=
  (deposit_spec acctA dbA 5 (by decide)).1 (by norm_num)

/-- C2: for a withdrawal of `a` with `0 < a ≤ balance`, `withdraw` returns
`true`, the balance becomes the old balance minus `a`, the store row holds
the new balance, and one WITHDRAW record is appended; for `a ≤ 0` or
`a > balance`, the same single boolean `false` is returned and neither the
account nor the store changes. -/
theorem withdraw_spec (acc : Account) (db : DB) (a : ℚ)
    (hrow : (balanceOf db acc.account_number).isSome) :
    (0 < a → a ≤ acc.balance →
      (acc.withdraw db a).1 = true ∧
      (acc.withdraw db a).2.1.balance = acc.balance - a ∧
      balanceOf (acc.withdraw db a).2.2 acc.account_number = some (acc.balance - a) ∧
      (acc.withdraw db a).2.1.transactions
        = acc.transactions ++ [⟨"WITHDRAW", a, acc.balance - a⟩]) ∧
    (a ≤ 0 ∨ acc.balance < a →
      (acc.withdraw db a).1 = false ∧
      (acc.withdraw db a).2.1 = acc ∧
      (acc.withdraw db a).2.2 = db) := by
  constructor
  · intro ha hle
    have hcond : ¬ (a ≤ 0 ∨ acc.balance < a) := by
      push_neg
      exact ⟨ha, hle⟩
    refine ⟨?_, ?_, ?_, ?_⟩ <;>
      simp only [Account.withdraw, if_neg hcond, Account._persist_balance]
    exact balanceOf_update_balance db acc.account_number (acc.balance - a) hrow
  · intro ha
    simp [Account.withdraw, ha]

/-- Witness for `withdraw_spec`: withdrawing 4 from `acctA` over `dbA`. -/
theorem withdraw_spec_witness :
    (acctA.withdraw dbA 4).1 = true ∧
    (acctA.withdraw dbA 4).2.1.balance = acctA.balance - 4 ∧
    balanceOf (acctA.withdraw dbA 4).2.2 acctA.account_number = some (acctA.balance - 4) ∧
    (acctA.withdraw dbA 4).2.1.transactions
      = acctA.transactions ++ [⟨"WITHDRAW", 4, acctA.balance - 4⟩] :=
  (withdraw_spec acctA dbA 4 (by decide)).1 (by norm_num) (by norm_num [acctA])

/-- C8: whenever `deposit`, `withdraw` or `change_pin` returns `false`, no
write reaches the durable store — the store is exactly as before the call —
and the in-memory account (balance, digest, identifier and session log) is
unchanged as well. -/
theorem failed_ops_no_write (acc : Account) (db : DB) (a : ℚ) (old_pin new_pin : String) :
    ((acc.deposit db a).1 = false →
      (acc.deposit db a).2.1 = acc ∧ (acc.deposit db a).2.2 = db) ∧
    ((acc.withdraw db a).1 = false →
      (acc.withdraw db a).2.1 = acc ∧ (acc.withdraw db a).2.2 = db) ∧
    ((acc.change_pin db old_pin new_pin).1 = false →
      (acc.change_pin db old_pin new_pin).2.1 = acc ∧
      (acc.change_pin db old_pin new_pin).2.2 = db) := by
  refine ⟨?_, ?_, ?_⟩ <;> intro hf
  · unfold Account.deposit at hf ⊢
    split_ifs at hf ⊢ with h
    exact ⟨rfl, rfl⟩
  · unfold Account.withdraw at hf ⊢
    split_ifs at hf ⊢ with h
    exact ⟨rfl, rfl⟩
  · unfold Account.change_pin at hf ⊢
    split_ifs at hf ⊢ with h1 h2
    · exact ⟨rfl, rfl⟩
    · exact ⟨rfl, rfl⟩

/-- Witness for `failed_ops_no_write`: a non-positive deposit, an oversized
withdrawal and a PIN change with a wrong old PIN on `acctA`, each leaving
account and store untouched. -/
theorem failed_ops_no_write_witness :
    ((acctA.deposit dbA (-1)).2.1 = acctA ∧ (acctA.deposit dbA (-1)).2.2 = dbA) ∧
    ((acctA.withdraw dbA 100).2.1 = acctA ∧ (acctA.withdraw dbA 100).2.2 = dbA) ∧
    ((acctA.change_pin dbA "9999" "5555").2.1 = acctA ∧
     (acctA.change_pin dbA "9999" "5555").2.2 = dbA) :=
  ⟨(failed_ops_no_write acctA dbA (-1) "9999" "5555").1 (by decide),
   (failed_ops_no_write acctA dbA 100 "9999" "5555").2.1 (by decide),
   (failed_ops_no_write acctA dbA 100 "9999" "5555").2.2 (by decide)⟩

/-! ### Session runs -/

/-- Unfolding one step of a session run. -/
theorem runOps_cons (st : Account × DB) (op : Op) (ops : List Op) :
    runOps st (op :: ops) = runOps (stepOp st op) ops := rfl

/-- A single ledger operation preserves non-negativity of the balance. -/
theorem stepOp_balance_nonneg (acc : Account) (db : DB) (op : Op)
    (h : 0 ≤ acc.balance) : 0 ≤ (stepOp (acc, db) op).1.balance := by
  cases op with
  | balanceInquiry => simpa [stepOp, Account.get_balance] using h
  | deposit a =>
      by_cases ha : a ≤ 0
      · simpa [stepOp, Account.deposit, ha] using h
      · simp only [stepOp, Account.deposit, if_neg ha]
        rw [not_le] at ha
        have hba : (0:ℚ) ≤ acc.balance + a := by linarith
        simpa using hba
  | withdraw a =>
      by_cases ha : a ≤ 0 ∨ acc.balance < a
      · simpa [stepOp, Account.withdraw, ha] using h
      · simp only [stepOp, Account.withdraw, if_neg ha]
        rw [not_or, not_le, not_lt] at ha
        have hba : (0:ℚ) ≤ acc.balance - a := by linarith [ha.2]
        simpa using hba
  | changePin o n =>
      simp only [stepOp]
      unfold Account.change_pin
      split_ifs <;> simpa using h
  | transactionsView => simpa [stepOp] using h

/-- Non-negativity of the balance is preserved by any sequence of ledger
operations. -/
theorem runOps_balance_nonneg (ops : List Op) :
    ∀ (acc : Account) (db : DB), 0 ≤ acc.balance →
      0 ≤ (runOps (acc, db) ops).1.balance := by
  induction ops with
  | nil => intro acc db h; simpa [runOps] using h
  | cons op rest ih =>
      intro acc db h
      rw [runOps_cons]
      exact ih (stepOp (acc, db) op).1 (stepOp (acc, db) op).2
        (stepOp_balance_nonneg acc db op h)

/-- C3: starting from a non-negative balance, the balance stays
non-negative after every sequence of ledger operations (balance inquiry,
deposit, withdrawal, PIN change, history view) with arbitrary arguments. -/
theorem balance_nonneg_invariant (acc : Account) (db : DB) (ops : List Op)
    (h : 0 ≤ acc.balance) : 0 ≤ (runOps (acc, db) ops).1.balance :=
  runOps_balance_nonneg ops acc db h

/-- Witness for `balance_nonneg_invariant`: a concrete session on `acctA`,
including a failing withdrawal. -/
theorem balance_nonneg_invariant_witness :
    0 ≤ (runOps (acctA, dbA)
      [Op.deposit 5, Op.withdraw 3, Op.withdraw 100, Op.balanceInquiry]).1.balance :=
  balance_nonneg_invariant acctA dbA
    [Op.deposit 5, Op.withdraw 3, Op.withdraw 100, Op.balanceInquiry] (by decide)

/-- Running a sequence of ledger operations appends exactly the records
`logOf` describes, in order, and leaves the balance at `balAfter`. -/
theorem runOps_transactions (ops : List Op) :
    ∀ (acc : Account) (db : DB),
      (runOps (acc, db) ops).1.transactions = acc.transactions ++ logOf acc.balance ops ∧
      (runOps (acc, db) ops).1.balance = balAfter acc.balance ops := by
  induction ops with
  | nil => intro acc db; simp [runOps, logOf, balAfter]
  | cons op rest ih =>
      intro acc db
      rw [runOps_cons]
      cases op with
      | balanceInquiry =>
          simp only [stepOp]
          rw [(ih (acc.get_balance).2 db).1, (ih (acc.get_balance).2 db).2]
          simp [Account.get_balance, logOf, balAfter]
      | deposit a =>
          by_cases ha : a ≤ 0
          · simp only [stepOp, Account.deposit, if_pos ha]
            rw [(ih acc db).1, (ih acc db).2]
            simp [logOf, balAfter, ha]
          · simp only [stepOp]
            rw [(ih ((acc.deposit db a).2.1) ((acc.deposit db a).2.2)).1,
              (ih ((acc.deposit db a).2.1) ((acc.deposit db a).2.2)).2]
            simp [Account.deposit, if_neg ha, logOf, balAfter, ha, List.append_assoc]
      | withdraw a =>
          by_cases ha : a ≤ 0 ∨ acc.balance < a
          · simp only [stepOp, Account.withdraw, if_pos ha]
            rw [(ih acc db).1, (ih acc db).2]
            simp [logOf, balAfter, ha]
          · simp only [stepOp]
            rw [(ih ((acc.withdraw db a).2.1) ((acc.withdraw db a).2.2)).1,
              (ih ((acc.withdraw db a).2.1) ((acc.withdraw db a).2.2)).2]
            simp [Account.withdraw, if_neg ha, logOf, balAfter, ha, List.append_assoc]
      | changePin o n =>
          simp only [stepOp]
          rw [(ih ((acc.change_pin db o n).2.1) ((acc.change_pin db o n).2.2)).1,
            (ih ((acc.change_pin db o n).2.1) ((acc.change_pin db o n).2.2)).2]
          have hb : (acc.change_pin db o n).2.1.balance = acc.balance := by
            unfold Account.change_pin
            split_ifs <;> rfl
          have ht : (acc.change_pin db o n).2.1.transactions = acc.transactions := by
            unfold Account.change_pin
            split_ifs <;> rfl
          rw [hb, ht]
          simp [logOf, balAfter]
      | transactionsView =>
          simp only [stepOp]
          rw [(ih acc db).1, (ih acc db).2]
          simp [logOf, balAfter]

/-- C4 (amended): within a session, `get_transactions` returns the records
of the operations performed, in order: each inquiry and each successful
deposit or withdrawal contributes exactly one record with the correct kind,
amount (0 for INQUIRY) and resulting-balance snapshot, while failed
deposits/withdrawals, PIN changes and history views contribute none. -/
theorem get_transactions_refines_log (acc : Account) (db : DB) (ops : List Op) :
    (runOps (acc, db) ops).1.get_transactions
      = acc.get_transactions ++ logOf acc.balance ops :=
  (runOps_transactions ops acc db).1

/-- C4 counterexample: one failed withdrawal is a ledger operation after
which the session log holds 0 records, not 1, so N operations need not
yield N records. -/
theorem history_count_counterexample :
    ((runOps (acctA, dbA) [Op.withdraw 100]).1.get_transactions).length
      ≠ ([Op.withdraw 100] : List Op).length := by decide

/-- C5 (amended): `change_pin old new` succeeds exactly when `old` matches
the stored digest and `new` has length at least 4; after a success,
authentication with `new` succeeds, and authentication with `old` fails
whenever the digests of `old` and `new` differ — in particular whenever
`old ≠ new` (at `old = new` the call succeeds and the old PIN still
authenticates). -/
theorem change_pin_rotation (acc : Account) (db : DB) (old_pin new_pin : String) :
    ((acc.change_pin db old_pin new_pin).1 = true ↔
      (acc._check_pin old_pin = true ∧ 4 ≤ new_pin.length)) ∧
    ((acc.change_pin db old_pin new_pin).1 = true →
      ((acc.change_pin db old_pin new_pin).2.1._check_pin new_pin = true ∧
        (hash_pin old_pin ≠ hash_pin new_pin →
          (acc.change_pin db old_pin new_pin).2.1._check_pin old_pin = false))) := by
  unfold Account.change_pin
  split_ifs with h1 h2
  · have hc : acc._check_pin old_pin = false := by simpa using h1
    simp [hc]
  · have hlen : ¬ 4 ≤ new_pin.length := by omega
    simp [hlen]
  · have hc : acc._check_pin old_pin = true := by simpa using h1
    have hlen : 4 ≤ new_pin.length := Nat.le_of_not_lt h2
    refine ⟨by simp [hc, hlen], fun _ => ⟨by simp [Account._check_pin], fun hne => ?_⟩⟩
    simp only [Account._check_pin]
    simp only [beq_eq_false_iff_ne, ne_eq]
    exact fun hcontra => hne hcontra.symm

/-- Witness for `change_pin_rotation`: rotating `acctA` from PIN `"1234"`
to `"7777"`. -/
theorem change_pin_rotation_witness :
    (acctA.change_pin dbA "1234" "7777").2.1._check_pin "7777" = true ∧
    (acctA.change_pin dbA "1234" "7777").2.1._check_pin "1234" = false :=
  ⟨((change_pin_rotation acctA dbA "1234" "7777").2 (by decide)).1,
   ((change_pin_rotation acctA dbA "1234" "7777").2 (by decide)).2 (by decide)⟩

/-- C5 counterexample: with `old = new = "1234"` on `acctA`, `change_pin`
succeeds and yet authentication with the old PIN still succeeds afterwards,
refuting "after success, authentication with old fails". -/
theorem change_pin_same_pin_counterexample :
    (acctA.change_pin dbA "1234" "1234").1 = true ∧
    (acctA.change_pin dbA "1234" "1234").2.1._check_pin "1234" = true := by
  decide

/-! ### Store initialization and account creation -/

/-- After `insert_or_ignore db row`, the row's identifier is present. -/
theorem insert_or_ignore_self (db : DB) (row : DBRow) :
    (insert_or_ignore db row).any
      (fun r => r.account_number == row.account_number) = true := by
  unfold insert_or_ignore
  split_ifs with h
  · exact h
  · simp [List.any_append]

/-- `insert_or_ignore` preserves presence of any identifier. -/
theorem insert_or_ignore_mono (db : DB) (row : DBRow) (id : String)
    (h : db.any (fun r => r.account_number == id) = true) :
    (insert_or_ignore db row).any (fun r => r.account_number == id) = true := by
  unfold insert_or_ignore
  split_ifs with hx
  · exact h
  · simp [List.any_append, h]

/-- `insert_or_ignore` of a row whose identifier is already present is the
identity on the store. -/
theorem insert_or_ignore_of_present (db : DB) (row : DBRow)
    (h : db.any (fun r => r.account_number == row.account_number) = true) :
    insert_or_ignore db row = db := by
  unfold insert_or_ignore
  rw [if_pos h]

/-- Every seeded identifier is present after `init_db`. -/
theorem init_db_has_samples (db : DB) :
    (sample_accounts.all
      (fun row => (init_db db).any
        (fun r => r.account_number == row.account_number))) = true := by
  have e : init_db db
      = insert_or_ignore (insert_or_ignore (insert_or_ignore db
          ⟨"1001", hash_pin "1234", 0⟩) ⟨"1002", hash_pin "5678", 0⟩)
          ⟨"1003", hash_pin "0000", 0⟩ := rfl
  simp only [sample_accounts, List.all_cons, List.all_nil, Bool.and_true, Bool.and_eq_true]
  refine ⟨?_, ?_, ?_⟩
  · rw [e]
    exact insert_or_ignore_mono _ _ _
      (insert_or_ignore_mono _ _ _ (insert_or_ignore_self db _))
  · rw [e]
    exact insert_or_ignore_mono _ _ _ (insert_or_ignore_self _ _)
  · rw [e]
    exact insert_or_ignore_self _ _

/-- `init_db` is idempotent. -/
theorem init_db_idem (db : DB) : init_db (init_db db) = init_db db := by
  have h := init_db_has_samples db
  simp only [sample_accounts, List.all_cons, List.all_nil, Bool.and_true,
    Bool.and_eq_true] at h
  obtain ⟨h1, h2, h3⟩ := h
  show insert_or_ignore (insert_or_ignore (insert_or_ignore (init_db db)
      ⟨"1001", hash_pin "1234", 0⟩) ⟨"1002", hash_pin "5678", 0⟩)
      ⟨"1003", hash_pin "0000", 0⟩ = init_db db
  rw [insert_or_ignore_of_present (init_db db) ⟨"1001", hash_pin "1234", 0⟩ h1,
    insert_or_ignore_of_present (init_db db) ⟨"1002", hash_pin "5678", 0⟩ h2,
    insert_or_ignore_of_present (init_db db) ⟨"1003", hash_pin "0000", 0⟩ h3]

/-- Seeding only ever appends rows: the original store is an unchanged
initial segment. -/
theorem foldl_insert_or_ignore_append (rows : List DBRow) :
    ∀ db : DB, ∃ rest : DB, List.foldl insert_or_ignore db rows = db ++ rest := by
  induction rows with
  | nil => intro db; exact ⟨[], by simp⟩
  | cons row rows ih =>
      intro db
      obtain ⟨rest, hrest⟩ := ih (insert_or_ignore db row)
      rw [List.foldl_cons, hrest]
      unfold insert_or_ignore
      split_ifs with h
      · exact ⟨rest, rfl⟩
      · exact ⟨[row] ++ rest, by simp⟩

/-- C7: `init_db` is idempotent — calling it `n + 1` times equals calling
it once; it only appends rows, never overwriting existing ones; every
seeded identifier is present afterwards; and on an empty store it produces
exactly the three sample accounts with zero balance. -/
theorem init_db_idempotent (db : DB) (n : ℕ) :
    init_db^[n + 1] db = init_db db ∧
    (∃ rest, init_db db = db ++ rest) ∧
    (sample_accounts.all
      (fun row => (init_db db).any
        (fun r => r.account_number == row.account_number))) = true ∧
    init_db [] = sample_accounts := by
  refine ⟨?_, ?_, init_db_has_samples db, by decide⟩
  · induction n with
    | zero => simp
    | succ m ihm =>
        rw [Function.iterate_succ_apply', ihm, init_db_idem]
  · exact foldl_insert_or_ignore_append sample_accounts db

/-- An `ATMState` whose store is `dbA`, as the program would load it. -/
def atmA : ATMState := ⟨dbA, load_all_accounts dbA, none⟩

/-- C6: creating an account whose identifier is already present in the
store fails and changes nothing: `insert_account_to_db` returns `false`
with the store unchanged (no second row; the existing row's balance and
digest untouched), and `ATM.create_account` on a state holding that store
returns failure and leaves the whole state unchanged. -/
theorem create_duplicate_fails (db : DB) (id pin : String) (s : ATMState)
    (hdup : db.any (fun r => r.account_number == id) = true) :
    (insert_account_to_db db id pin).1 = false ∧
    (insert_account_to_db db id pin).2 = db ∧
    (s.db = db → (ATM.create_account s id pin).1 = false ∧
      (ATM.create_account s id pin).2 = s) := by
  refine ⟨by simp [insert_account_to_db, hdup], by simp [insert_account_to_db, hdup], ?_⟩
  intro hs
  subst hs
  have hins : insert_account_to_db s.db id pin = (false, s.db) := by
    simp [insert_account_to_db, hdup]
  unfold ATM.create_account
  split_ifs with h1 h2 h3
  · exact ⟨rfl, rfl⟩
  · exact ⟨rfl, rfl⟩
  · exact ⟨rfl, rfl⟩
  · rw [hins]
    exact ⟨rfl, rfl⟩

/-- Witness for `create_duplicate_fails`: re-creating identifier `"1001"`,
already present in `dbA`, through the store and through the controller. -/
theorem create_duplicate_fails_witness :
    (insert_account_to_db dbA "1001" "9999").1 = false ∧
    (insert_account_to_db dbA "1001" "9999").2 = dbA ∧
    (ATM.create_account atmA "1001" "9999").2 = atmA :=
  ⟨(create_duplicate_fails dbA "1001" "9999" atmA (by decide)).1,
   (create_duplicate_fails dbA "1001" "9999" atmA (by decide)).2.1,
   ((create_duplicate_fails dbA "1001" "9999" atmA (by decide)).2.2 rfl).2⟩

/-! ### Logout and per-field frame conditions -/

/-- An account with an existing session log, and an `ATMState` binding it. -/
def acctB : Account := ⟨"1001", hash_pin "1234", 10, [⟨"DEPOSIT", 10, 10⟩]⟩

/-- A logged-in controller state whose map holds `acctB`. -/
def atmB : ATMState := ⟨dbA, [("1001", acctB)], some "1001"⟩

/-- C9: logout clears only the current-account binding — the store and
every loaded account (balance, digest, session log) are untouched — so
re-authenticating to the same account within the process finds the same
account with its full pre-logout log, and any subsequent operations append
to that log. -/
theorem logout_frame (s : ATMState) (id pin : String) (acc : Account)
    (hfind : s.accounts.find? (fun p => p.1 == id) = some (id, acc))
    (hpin : acc._check_pin pin = true) :
    (ATM.logout s).db = s.db ∧
    (ATM.logout s).accounts = s.accounts ∧
    (ATM.logout s).current_account = none ∧
    (ATM.authenticate_user (ATM.logout s) id pin).1 = true ∧
    ((ATM.authenticate_user (ATM.logout s) id pin).2).current_account = some id ∧
    ((ATM.authenticate_user (ATM.logout s) id pin).2).db = s.db ∧
    ((ATM.authenticate_user (ATM.logout s) id pin).2).accounts = s.accounts ∧
    (∀ ops : List Op,
      (runOps (acc, s.db) ops).1.get_transactions
        = acc.get_transactions ++ logOf acc.balance ops) := by
  have hauth : ATM.authenticate_user (ATM.logout s) id pin
      = (true, { ATM.logout s with current_account := some id }) := by
    unfold ATM.authenticate_user ATM.logout
    simp only [hfind, hpin, if_pos]
  refine ⟨rfl, rfl, rfl, ?_, ?_, ?_, ?_, ?_⟩
  · rw [hauth]
  · rw [hauth]
  · rw [hauth]
    rfl
  · rw [hauth]
    rfl
  · intro ops
    exact (runOps_transactions ops acc s.db).1

/-- Witness for `logout_frame`: logging out of `atmB` and back in to
account `"1001"` with the original PIN, then one more deposit. -/
theorem logout_frame_witness :
    (ATM.authenticate_user (ATM.logout atmB) "1001" "1234").1 = true ∧
    (runOps (acctB, atmB.db) [Op.deposit 5]).1.get_transactions
      = acctB.get_transactions ++ logOf acctB.balance [Op.deposit 5] :=
  ⟨(logout_frame atmB "1001" "1234" acctB (by rfl) (by rfl)).2.2.2.1,
   (logout_frame atmB "1001" "1234" acctB (by rfl) (by rfl)).2.2.2.2.2.2.2 [Op.deposit 5]⟩

/-- C10: each operation mutates only its own field — `get_balance`,
`deposit` and `withdraw` leave the in-memory digest and the store's pin
column untouched; `change_pin` leaves the balance, the session log and the
store's balance column untouched; and no operation changes any account
identifier, in memory or in the store. -/
theorem operations_frame (acc : Account) (db : DB) (a : ℚ) (old_pin new_pin : String) :
    (acc.get_balance).2.pin_hash = acc.pin_hash ∧
    (acc.deposit db a).2.1.pin_hash = acc.pin_hash ∧
    (acc.withdraw db a).2.1.pin_hash = acc.pin_hash ∧
    ((acc.deposit db a).2.2.map (fun r => (r.account_number, r.pin)))
      = db.map (fun r => (r.account_number, r.pin)) ∧
    ((acc.withdraw db a).2.2.map (fun r => (r.account_number, r.pin)))
      = db.map (fun r => (r.account_number, r.pin)) ∧
    (acc.change_pin db old_pin new_pin).2.1.balance = acc.balance ∧
    (acc.change_pin db old_pin new_pin).2.1.transactions = acc.transactions ∧
    ((acc.change_pin db old_pin new_pin).2.2.map (fun r => (r.account_number, r.balance)))
      = db.map (fun r => (r.account_number, r.balance)) ∧
    (acc.get_balance).2.account_number = acc.account_number ∧
    (acc.deposit db a).2.1.account_number = acc.account_number ∧
    (acc.withdraw db a).2.1.account_number = acc.account_number ∧
    (acc.change_pin db old_pin new_pin).2.1.account_number = acc.account_number := by
  refine ⟨rfl, ?_, ?_, ?_, ?_, ?_, ?_, ?_, rfl, ?_, ?_, ?_⟩
  · unfold Account.deposit
    split_ifs <;> rfl
  · unfold Account.withdraw
    split_ifs <;> rfl
  · unfold Account.deposit
    split_ifs with h
    · rfl
    · exact update_balance_id_pin db acc.account_number (acc.balance + a)
  · unfold Account.withdraw
    split_ifs with h
    · rfl
    · exact update_balance_id_pin db acc.account_number (acc.balance - a)
  · unfold Account.change_pin
    split_ifs <;> rfl
  · unfold Account.change_pin
    split_ifs <;> rfl
  · unfold Account.change_pin
    split_ifs with h1 h2
    · rfl
    · rfl
    · exact update_pin_id_balance db acc.account_number (hash_pin new_pin)
  · unfold Account.deposit
    split_ifs <;> rfl
  · unfold Account.withdraw
    split_ifs <;> rfl
  · unfold Account.change_pin
    split_ifs <;> rfl
